import Mathlib

/-!
Verification of the Trend Classification & Transition Decision Engine of the
InvestTrader repository (`src/trader.py`, class `NewTrendTaStrategy`).

The Python strategy is shallowly embedded:
* floating point prices/indicator values are modelled as rationals (`ℚ`);
* per-bar indicator readings are collected in `MarketCtx` (one field per
  indicator line the strategy reads on the current bar, plus the lookback
  values it reads, plus `barLen` for `len(self)`);
* the per-bar driver `next()` becomes the pure step `nextStep`;
* the fill accounting in `notify_order` becomes `applyFill`;
* a run of the strategy over a bar series is a fold (`runSteps` / `runStates`),
  where an order submitted on a bar is filled at that bar's close.

Naming note: the source names `bottom_ratio` and `vol_ratio` are rendered
`bottom_frac` and `vol_frac`; all other names follow the source.
-/

namespace InvestTrader

/-- The six trend labels returned by `_get_trend`
(`'SU' | 'WU' | 'CO' | 'SD' | 'WD' | 'UT'`). -/
inductive Trend
  | SU | WU | CO | SD | WD | UT
deriving DecidableEq

/-- The `function` parameter of the strategy: `'trend'` (simulated execution /
backtest) or `'suggestion'` (advisory). -/
inductive Mode
  | trend | suggestion
deriving DecidableEq

/-- Strategy parameters (`params` dict of `NewTrendTaStrategy`); only the
fields the modelled code reads are kept.  `bottom_frac` is the source's
`bottom_ratio`. -/
structure Params where
  initial_amount : ℚ := 1000
  daily_amount : ℚ := 200
  reduce_step : ℚ := 1/10
  bottom_frac : ℚ := 1/10
  osc_band_tol : ℚ := 2/100
  min_cash_buffer : ℚ := 0
deriving DecidableEq

/-- Default parameter values of the source. -/
def defaultParams : Params := {}

/-- The indicator readings of one bar: each field is the value of the
corresponding indicator line read by the strategy on the current bar
(`x` is `line[0]`, `x3` is `line[-3]`, `x5` is `line[-5]`, `close1` is
`close[-1]`).  `volSum10` is `sum(volatility[-i] for i in range(10))`,
`recentLow5`/`recentHigh5` are `min`/`max` of `close[-1] .. close[-5]`,
and `barLen` is `len(self)`. -/
structure MarketCtx where
  close : ℚ
  close1 : ℚ
  ma_short : ℚ
  ma_mid : ℚ
  ma_long : ℚ
  ema_fast : ℚ
  ema_medium : ℚ
  ema_slow : ℚ
  bb_top : ℚ
  bb_bot : ℚ
  bb_top3 : ℚ
  bb_top5 : ℚ
  bb_bot5 : ℚ
  rsi : ℚ
  atr : ℚ
  atr3 : ℚ
  kdj_j : ℚ
  adx : ℚ
  adx3 : ℚ
  momentum : ℚ
  momentum_prev : ℚ
  volatility : ℚ
  volSum10 : ℚ
  volume : ℚ
  vol_sma : ℚ
  recentLow5 : ℚ
  recentHigh5 : ℚ
  barLen : ℕ
deriving DecidableEq

/-- `_is_strong_up_trend`: MA and EMA bullish alignment, close above the short
MA, ADX above 25, positive momentum. -/
def isStrongUpTrend (c : MarketCtx) : Bool :=
  decide (c.ma_short > c.ma_mid ∧ c.ma_mid > c.ma_long
    ∧ c.ema_fast > c.ema_medium ∧ c.ema_medium > c.ema_slow)
  && decide (c.close > c.ma_short)
  && decide (c.adx > 25)
  && decide (c.momentum > 0)

/-- `_is_weak_up_trend`. -/
def isWeakUpTrend (c : MarketCtx) : Bool :=
  decide (c.ma_short > c.ma_mid ∧ c.ma_mid > c.ma_long)
  && decide (c.close > c.ma_mid)
  && decide (c.momentum > 0)

/-- `_is_strong_down_trend`. -/
def isStrongDownTrend (c : MarketCtx) : Bool :=
  decide (c.ma_short < c.ma_mid ∧ c.ma_mid < c.ma_long
    ∧ c.ema_fast < c.ema_medium ∧ c.ema_medium < c.ema_slow)
  && decide (c.close < c.ma_mid)
  && decide (c.adx > 25)
  && decide (c.momentum < 0)

/-- `_is_weak_down_trend`. -/
def isWeakDownTrend (c : MarketCtx) : Bool :=
  decide (c.ma_short < c.ma_mid ∧ c.ma_mid < c.ma_long)
  && decide (c.close < c.ma_short)
  && decide (c.momentum < 0)

/-- `_is_consolidation`: low ADX, or entangled MAs, or volatility below 0.8 of
its own 10-bar trailing average (`volatility_sum / 10`). -/
def isConsolidation (p : Params) (c : MarketCtx) : Bool :=
  let low_adx : Bool := decide (c.adx < 20)
  let ma_diff : ℚ := |c.ma_short - c.ma_mid| / c.close
  let narrow_bands : Bool := decide (ma_diff < p.osc_band_tol)
  let avg_volatility : ℚ := c.volSum10 / 10
  let low_volatility : Bool := decide (c.volatility < avg_volatility * (8/10))
  low_adx || narrow_bands || low_volatility

/-- `_is_overbought`: RSI > 70, or KDJ J > 80, or close above the upper
Bollinger band. -/
def isOverbought (c : MarketCtx) : Bool :=
  decide (c.rsi > 70) || decide (c.kdj_j > 80) || decide (c.close > c.bb_top)

/-- `_is_oversold`: RSI < 30, or KDJ J < 20, or close below the lower
Bollinger band. -/
def isOversold (c : MarketCtx) : Bool :=
  decide (c.rsi < 30) || decide (c.kdj_j < 20) || decide (c.close < c.bb_bot)

/-- `_get_trend`: first matching label wins, in the fixed source order
SU, WU, CO, SD, WD, UT. -/
def getTrend (p : Params) (c : MarketCtx) : Trend :=
  if isStrongUpTrend c then Trend.SU
  else if isWeakUpTrend c then Trend.WU
  else if isConsolidation p c then Trend.CO
  else if isStrongDownTrend c then Trend.SD
  else if isWeakDownTrend c then Trend.WD
  else Trend.UT

/-- `_breakout_coming`: five boolean signals, true iff at least two hold.
The band-width lookback is 0 when `len(self) <= 5`, and the ATR/ADX signals
are forced false when `len(self) <= 3`, exactly as in the source. -/
def breakoutComing (c : MarketCtx) : Bool :=
  let bb_width_now : ℚ := c.bb_top - c.bb_bot
  let bb_width_prev : ℚ := if 5 < c.barLen then c.bb_top5 - c.bb_bot5 else 0
  let bb_opening : Bool := decide (bb_width_now > bb_width_prev * (115/100))
  let atr_rising : Bool :=
    if 3 < c.barLen then decide (c.atr > c.atr3 * (110/100)) else false
  let adx_rising : Bool :=
    if 3 < c.barLen then decide (c.adx > c.adx3 + 2) else false
  let price_break_ma : Bool :=
    decide ((c.close > c.ma_short ∧ c.ma_short > c.ma_mid)
      ∨ (c.close < c.ma_short ∧ c.ma_short < c.ma_mid))
  let vol_rising : Bool := decide (c.volume > c.vol_sma * (13/10))
  let count : ℕ :=
    (if bb_opening then 1 else 0) + (if atr_rising then 1 else 0)
    + (if adx_rising then 1 else 0) + (if price_break_ma then 1 else 0)
    + (if vol_rising then 1 else 0)
  decide (2 ≤ count)

/-- The range-market micro-decision at the tail of `_trend_change`
(the branch taken when the current trend is CO, no transition rule fired,
and no breakout is anticipated). -/
def consolidationMicroDecision (c : MarketCtx) : ℚ × String :=
  let nav := c.close
  let oversold := isOversold c
  let overbought := isOverbought c
  let bb_slope : ℚ := if 3 < c.barLen then c.bb_top - c.bb_top3 else 0
  let flat_band : Bool := decide (|bb_slope| < (2/10) * c.atr)
  let not_volume_dump : Bool := decide (c.volume ≤ c.vol_sma * (12/10))
  let not_volume_breakout : Bool := decide (c.volume ≤ c.vol_sma * (13/10))
  let low_buy : Bool :=
    (decide (nav ≤ c.bb_bot) || oversold) && flat_band && not_volume_dump
  let high_sell : Bool :=
    (decide (nav ≥ c.bb_top) || overbought) && flat_band && not_volume_breakout
  if low_buy then (1, "震荡市，低位吸纳")
  else if high_sell then (-1, "震荡市，高位减持")
  else (0, "震荡市，未发现操作点")

/-- `_trend_change`: the sequential rule chain of the source rendered as an
ordered match on the `(prev, curr)` pair.  Persistence rules come first
(the source's `prev == curr` block, which silently falls through for CO and
UT), then the explicit transition rules in source order, then the CO
catch-all (breakout anticipator / micro-decision), then the default. -/
def trendChange (prev curr : Trend) (c : MarketCtx) : ℚ × String :=
  match prev, curr with
  | Trend.WU, Trend.WU => (1/2, "趋势保持弱升，小加仓")
  | Trend.WD, Trend.WD => (-1, "趋势保持弱跌，小减仓")
  | Trend.SU, Trend.SU => (1/2, "趋势保持强升，轻加仓")
  | Trend.SD, Trend.SD => (-2, "趋势保持强跌，大幅减仓")
  | Trend.CO, Trend.WU => (1, "震荡→弱升，试探性建仓")
  | Trend.WU, Trend.SU => (2, "弱升→强升，加速加仓")
  | Trend.CO, Trend.SU => (3, "震荡→强升，强力建仓（有效突破）")
  | Trend.SU, Trend.WU => (-1, "弱升→震荡，减仓 10%")
  | Trend.WU, Trend.CO => (-1, "弱升→震荡，减仓 10%")
  | Trend.SU, Trend.CO => (-2, "强升结束（可能见顶），减仓 20%")
  | Trend.CO, Trend.WD => (-3, "震荡转弱跌，减仓 20%")
  | Trend.WD, Trend.SD => (-4, "弱跌转强跌，减仓 40%")
  | Trend.CO, Trend.SD => (-5, "震荡转强跌，减仓 50%")
  | Trend.SD, Trend.WD => (0, "强跌转弱跌，不加仓（避免抄底）")
  | Trend.WD, Trend.CO => (0, "弱跌企稳，不加仓（横盘可能继续跌）")
  | Trend.SD, Trend.CO => (0, "强跌企稳，不加仓（等待趋势反转确认）")
  | Trend.WU, Trend.WD => (0, "上下反复，继续观望")
  | Trend.WD, Trend.WU => (0, "上下反复，继续观望")
  | _, Trend.CO =>
      if !breakoutComing c then consolidationMicroDecision c
      else (0, "震荡市突破中，等待确认")
  | _, _ => (0, "无操作")

/-- `_is_good_entry_point`'s internal score: four boolean signals, one point
each (oversold; momentum rising and positive; close within 2% above the lower
Bollinger band; `vol_frac` — the source's `self.vol_ratio` — above 1). -/
def entryScore (c : MarketCtx) (vol_frac : ℚ) : ℕ :=
  (if isOversold c then 1 else 0)
  + (if c.momentum > c.momentum_prev ∧ c.momentum > 0 then 1 else 0)
  + (if c.close ≤ c.bb_bot * (102/100) then 1 else 0)
  + (if vol_frac > 1 then 1 else 0)

/-- `_is_good_entry_point`: entry multiplier from the score
(score ≥ 3 ⇒ 2, score ≥ 2 ⇒ 1, else 0). -/
def goodEntryPoint (c : MarketCtx) (vol_frac : ℚ) : ℕ :=
  let score := entryScore c vol_frac
  if 3 ≤ score then 2 else if 2 ≤ score then 1 else 0

/-- `_is_volume_breakout`: `vol_ratio` above 2 together with a rising close. -/
def isVolumeBreakout (c : MarketCtx) (vol_frac : ℚ) : Bool :=
  decide (vol_frac > 2) && decide (c.close > c.close1)

/-- `_is_volume_shrink`: `0 < vol_ratio < 0.5`. -/
def isVolumeShrink (vol_frac : ℚ) : Bool :=
  decide (0 < vol_frac ∧ vol_frac < 1/2)

/-- `_is_bullish_volume_divergence`: close below the 5-bar trailing low with
`vol_ratio` above 1.5. -/
def isBullishVolumeDivergence (c : MarketCtx) (vol_frac : ℚ) : Bool :=
  decide (c.close < c.recentLow5) && decide (vol_frac > 3/2)

/-- `_is_bearish_volume_divergence`: close above the 5-bar trailing high with
`0 < vol_ratio < 0.7`. -/
def isBearishVolumeDivergence (c : MarketCtx) (vol_frac : ℚ) : Bool :=
  decide (c.close > c.recentHigh5) && decide (0 < vol_frac ∧ vol_frac < 7/10)

/-- The position ledger of the strategy
(`hold_shares` / `hold_cost` / `realized_pnl` / `max_hold_shares`). -/
structure Ledger where
  hold_shares : ℚ
  hold_cost : ℚ
  realized_pnl : ℚ
  max_hold_shares : ℚ
deriving DecidableEq

/-- The `1e-12` epsilon under which the holding is considered fully closed. -/
def epsShares : ℚ := 1 / 1000000000000

/-- Average cost per held share: `hold_cost / hold_shares` when
`hold_shares > 0`, else 0. -/
def avgCost (L : Ledger) : ℚ :=
  if 0 < L.hold_shares then L.hold_cost / L.hold_shares else 0

/-- The fill accounting of `notify_order` on a completed order: `ex_size` is
the signed executed size (positive buy, negative sell) and `ex_price` the
executed price.  Realized P&L moves only on sells, using the pre-fill average
cost; cost basis moves by `ex_size * ex_price`; a post-fill holding below
`1e-12` resets shares and cost to exactly 0; the high-water mark is updated
last. -/
def applyFill (L : Ledger) (ex_size ex_price : ℚ) : Ledger :=
  let ac := avgCost L
  let hs := L.hold_shares + ex_size
  let hc := L.hold_cost + ex_size * ex_price
  let rp := if ex_size < 0 then L.realized_pnl + (-ex_size) * (ex_price - ac)
            else L.realized_pnl
  let hs2 := if hs < epsShares then 0 else hs
  let hc2 := if hs < epsShares then 0 else hc
  let mx := if hs2 > L.max_hold_shares then hs2 else L.max_hold_shares
  { hold_shares := hs2, hold_cost := hc2, realized_pnl := rp,
    max_hold_shares := mx }

/-- An order submitted to the broker: `self.buy(size=...)` or
`self.sell(size=...)`. -/
inductive Order
  | buy (size : ℚ)
  | sell (size : ℚ)
deriving DecidableEq

/-- The advisory-mode signal text (`self.signal`), with the numeric payloads
kept symbolic instead of being formatted into the string. -/
inductive Signal
  | noSignal
  | suggestOpen (amt : ℚ)
  | trendAdd (sig : String) (amt : ℚ)
  | trendReduce (sig : String) (frac : ℚ)
  | rangeEntry (amt : ℚ)
  | plainSig (sig : String)
deriving DecidableEq

/-- The strategy's per-run mutable state: `vol_frac` is the source's
`self.vol_ratio`, `pos` is the broker position size (`self.getposition().size`)
and `cash` the broker cash. -/
structure StratState where
  vol_frac : ℚ
  trend_prev : Option Trend
  start_nav : Option ℚ
  signal : Signal
  ledger : Ledger
  pos : ℚ
  cash : ℚ
deriving DecidableEq

/-- The state at the start of a run: empty ledger, no previous trend, no entry
recorded, `vol_ratio = 0.0`. -/
def initState (cash : ℚ) : StratState :=
  { vol_frac := 0, trend_prev := none, start_nav := none,
    signal := Signal.noSignal, ledger := ⟨0, 0, 0, 0⟩, pos := 0, cash := cash }

/-- `can_reduce` of the reduction branch of `next`:
`max(0.0, pos.size - max_hold_shares * bottom_ratio)`. -/
def canReduce (p : Params) (pos max_hold : ℚ) : ℚ :=
  max 0 (pos - max_hold * p.bottom_frac)

/-- `size_to_sell` of the reduction branch of `next`:
`min(pos.size * (reduce_step * trend_ratio), can_reduce)` for a directive
with (negative) ratio `r`. -/
def sizeToSell (p : Params) (pos max_hold r : ℚ) : ℚ :=
  min (pos * (p.reduce_step * r)) (canReduce p pos max_hold)

/-- `next()`: one bar of the strategy driver.  Returns the updated state and
the order submitted on this bar, if any.  The branch structure follows the
source: initial-entry phase (execution mode only), then the trend-transition
logic, with the advisory branches writing `self.signal` instead of trading. -/
def nextStep (p : Params) (mode : Mode) (c : MarketCtx) (st : StratState) :
    StratState × Option Order :=
  let nav := c.close
  let score := goodEntryPoint c st.vol_frac
  let cash_avail := st.cash - p.min_cash_buffer
  let entry_amt := p.initial_amount * (score : ℚ)
  let trend_now := getTrend p c
  let rs := match st.trend_prev with
    | some tp => trendChange tp trend_now c
    | none => ((0 : ℚ), "无操作")
  let sig0 := if mode = Mode.suggestion ∧ 0 < score then
                Signal.suggestOpen entry_amt
              else Signal.noSignal
  if st.start_nav = none ∧ mode = Mode.trend then
    if 0 < score ∨ 5 < c.barLen then
      ({ st with signal := Signal.noSignal, start_nav := some nav },
       if 0 < min entry_amt cash_avail then
         some (Order.buy ((min entry_amt cash_avail) / nav))
       else none)
    else ({ st with signal := Signal.noSignal }, none)
  else
    let st1 := { st with signal := sig0, trend_prev := some trend_now }
    if 0 < rs.1 then
      let amt := min (p.daily_amount * rs.1) cash_avail
      if 0 < amt ∧ mode = Mode.trend then
        (st1, some (Order.buy (amt / nav)))
      else if mode = Mode.suggestion then
        ({ st1 with signal := Signal.trendAdd rs.2 (p.daily_amount * rs.1) },
         none)
      else (st1, none)
    else if rs.1 < 0 then
      if 0 < st.pos ∧ mode = Mode.trend
          ∧ 0 < canReduce p st.pos st.ledger.max_hold_shares then
        (if 0 < sizeToSell p st.pos st.ledger.max_hold_shares rs.1 then
           (st1, some (Order.sell
             (sizeToSell p st.pos st.ledger.max_hold_shares rs.1)))
         else (st1, none))
      else if mode = Mode.suggestion then
        ({ st1 with signal := Signal.trendReduce rs.2 (p.reduce_step * rs.1) },
         none)
      else (st1, none)
    else if trend_now = Trend.CO ∧ 0 < score then
      if st.start_nav = none ∧ 0 < min entry_amt cash_avail
          ∧ mode = Mode.trend then
        ({ st1 with start_nav := some nav },
         some (Order.buy ((min entry_amt cash_avail) / nav)))
      else if mode = Mode.suggestion then
        ({ st1 with signal := Signal.rangeEntry entry_amt }, none)
      else (st1, none)
    else
      if mode = Mode.suggestion then
        ({ st1 with signal := Signal.plainSig rs.2 }, none)
      else (st1, none)

/-- A fill of the order submitted on a bar, executed at that bar's close:
the broker position and cash move, and the ledger is updated through the
`notify_order` accounting (`applyFill`), whose executed size is negative for
sells. -/
def fillOrder (st : StratState) (price : ℚ) : Option Order → StratState
  | none => st
  | some (Order.buy sz) =>
      { st with pos := st.pos + sz, cash := st.cash - sz * price,
                ledger := applyFill st.ledger sz price }
  | some (Order.sell sz) =>
      { st with pos := st.pos - sz, cash := st.cash + sz * price,
                ledger := applyFill st.ledger (-sz) price }

/-- A run of the strategy over a bar series: fold `nextStep` then `fillOrder`
over the bars; returns the final state and the list of submitted orders. -/
def runSteps (p : Params) (mode : Mode) :
    StratState → List MarketCtx → StratState × List Order
  | st, [] => (st, [])
  | st, c :: rest =>
      let so := nextStep p mode c st
      let st2 := fillOrder so.1 c.close so.2
      let tl := runSteps p mode st2 rest
      (tl.1, match so.2 with
             | some o => o :: tl.2
             | none => tl.2)

/-- The trace of strategy states along a run: the state at the start of each
bar, plus the state after the final bar. -/
def runStates (p : Params) (mode : Mode) :
    StratState → List MarketCtx → List StratState
  | st, [] => [st]
  | st, c :: rest =>
      let so := nextStep p mode c st
      st :: runStates p mode (fillOrder so.1 c.close so.2) rest

/-- A concrete bar on which `_get_trend` yields SD: bearish MA/EMA alignment,
close below the mid MA, ADX 30, negative momentum, and none of the
consolidation conditions. -/
def ctxSD : MarketCtx :=
  { close := 85, close1 := 85, ma_short := 90, ma_mid := 95, ma_long := 100,
    ema_fast := 90, ema_medium := 95, ema_slow := 100,
    bb_top := 110, bb_bot := 80, bb_top3 := 110, bb_top5 := 110, bb_bot5 := 80,
    rsi := 50, atr := 1, atr3 := 1, kdj_j := 50, adx := 30, adx3 := 30,
    momentum := -1, momentum_prev := -1, volatility := 1, volSum10 := 10,
    volume := 100, vol_sma := 100, recentLow5 := 80, recentHigh5 := 90,
    barLen := 100 }

/-- The concrete state of the bottom-ratio scenario: 1000 held shares, peak
holding 1000, position already opened. -/
def c1State : StratState :=
  { vol_frac := 0, trend_prev := some Trend.SD, start_nav := some 1,
    signal := Signal.noSignal, ledger := ⟨1000, 1000, 0, 1000⟩,
    pos := 1000, cash := 10000 }

/-- The `(prev, curr)` pairs covered by a specific rule of `_trend_change`:
the four persistence rules, the fourteen explicit transition rules, and the
consolidation catch-all (which handles the two remaining pairs whose current
trend is CO). -/
def coveredPair : Trend → Trend → Bool
  | Trend.WU, Trend.WU => true
  | Trend.WD, Trend.WD => true
  | Trend.SU, Trend.SU => true
  | Trend.SD, Trend.SD => true
  | Trend.CO, Trend.WU => true
  | Trend.WU, Trend.SU => true
  | Trend.CO, Trend.SU => true
  | Trend.SU, Trend.WU => true
  | Trend.WU, Trend.CO => true
  | Trend.SU, Trend.CO => true
  | Trend.CO, Trend.WD => true
  | Trend.WD, Trend.SD => true
  | Trend.CO, Trend.SD => true
  | Trend.SD, Trend.WD => true
  | Trend.WD, Trend.CO => true
  | Trend.SD, Trend.CO => true
  | Trend.WU, Trend.WD => true
  | Trend.WD, Trend.WU => true
  | Trend.CO, Trend.CO => true
  | Trend.UT, Trend.CO => true
  | _, _ => false

/-- The five breakout signals exactly as the specification words them
(band width now vs. 5 bars ago ×1.15; ATR now vs. 3 bars ago ×1.10; ADX now
vs. 3 bars ago +2; close outside the short/mid MA ordering; volume above 1.3×
its 20-bar average), counted. -/
def specSignalCount (c : MarketCtx) : ℕ :=
  (if c.bb_top - c.bb_bot > (c.bb_top5 - c.bb_bot5) * (115/100) then 1 else 0)
  + (if c.atr > c.atr3 * (110/100) then 1 else 0)
  + (if c.adx > c.adx3 + 2 then 1 else 0)
  + (if (c.close > c.ma_short ∧ c.ma_short > c.ma_mid)
        ∨ (c.close < c.ma_short ∧ c.ma_short < c.ma_mid) then 1 else 0)
  + (if c.volume > c.vol_sma * (13/10) then 1 else 0)


/-! ### Structural lemmas about the driver step and the fill accounting -/

theorem nextStep_ledger (p : Params) (mode : Mode) (c : MarketCtx)
    (st : StratState) : (nextStep p mode c st).1.ledger = st.ledger := by
  simp only [nextStep]
  split_ifs <;> rfl

theorem nextStep_pos (p : Params) (mode : Mode) (c : MarketCtx)
    (st : StratState) : (nextStep p mode c st).1.pos = st.pos := by
  simp only [nextStep]
  split_ifs <;> rfl

theorem nextStep_vol_frac (p : Params) (mode : Mode) (c : MarketCtx)
    (st : StratState) : (nextStep p mode c st).1.vol_frac = st.vol_frac := by
  simp only [nextStep]
  split_ifs <;> rfl

set_option maxHeartbeats 1000000 in
/-- In advisory mode `next()` submits no order: every `buy`/`sell` call is
guarded by `function == 'trend'`. -/
theorem nextStep_suggestion_order (p : Params) (c : MarketCtx)
    (st : StratState) : (nextStep p Mode.suggestion c st).2 = none := by
  simp only [nextStep]
  generalize goodEntryPoint c st.vol_frac = score
  generalize (match st.trend_prev with
    | some tp => trendChange tp (getTrend p c) c
    | none => ((0 : ℚ), "无操作")) = rs
  split_ifs <;> first | rfl | simp_all

set_option maxHeartbeats 1000000 in
/-- Every order `next()` can submit is either a buy of `amt / close` for some
positive amount `amt`, or the sell of the reduction branch, which requires a
negative directive ratio, a positive position and a positive computed
`size_to_sell`. -/
theorem nextStep_order_spec (p : Params) (mode : Mode) (c : MarketCtx)
    (st : StratState) :
    (nextStep p mode c st).2 = none
    ∨ (∃ amt : ℚ, 0 < amt
        ∧ (nextStep p mode c st).2 = some (Order.buy (amt / c.close)))
    ∨ (∃ r : ℚ, r < 0 ∧ 0 < st.pos
        ∧ 0 < sizeToSell p st.pos st.ledger.max_hold_shares r
        ∧ (nextStep p mode c st).2
          = some (Order.sell (sizeToSell p st.pos st.ledger.max_hold_shares r))) := by
  simp only [nextStep]
  generalize hsc : goodEntryPoint c st.vol_frac = score
  generalize hrs : (match st.trend_prev with
    | some tp => trendChange tp (getTrend p c) c
    | none => ((0 : ℚ), "无操作")) = rs
  split_ifs
  all_goals try (left; rfl)
  all_goals try (right; left; refine ⟨_, ?_, rfl⟩; first | assumption | tauto)
  all_goals (right; right; refine ⟨rs.1, ?_, ?_, ?_, rfl⟩ <;>
    first | assumption | tauto)

/-- With a non-negative `reduce_step`, the sell size computed for a negative
directive ratio is never positive. -/
theorem sizeToSell_nonpos (p : Params) (pos mh r : ℚ) (hrs : 0 ≤ p.reduce_step)
    (hpos : 0 ≤ pos) (hr : r < 0) : sizeToSell p pos mh r ≤ 0 := by
  have h2 : p.reduce_step * r ≤ 0 :=
    mul_nonpos_iff.mpr (Or.inl ⟨hrs, le_of_lt hr⟩)
  have h1 : pos * (p.reduce_step * r) ≤ 0 :=
    mul_nonpos_iff.mpr (Or.inl ⟨hpos, h2⟩)
  calc sizeToSell p pos mh r ≤ pos * (p.reduce_step * r) := min_le_left _ _
    _ ≤ 0 := h1

/-- `next()` never submits a sell order (in any mode). -/
theorem nextStep_no_sell (p : Params) (mode : Mode) (c : MarketCtx)
    (st : StratState) (hrs : 0 ≤ p.reduce_step) (sz : ℚ) :
    (nextStep p mode c st).2 ≠ some (Order.sell sz) := by
  intro h
  rcases nextStep_order_spec p mode c st with h0 | ⟨amt, _, hb⟩ | ⟨r, hr, hp, hts, hs⟩
  · rw [h] at h0
    exact Option.noConfusion h0
  · rw [h] at hb
    exact Order.noConfusion (Option.some.inj hb)
  · exact absurd hts (not_lt.mpr (sizeToSell_nonpos p st.pos
      st.ledger.max_hold_shares r hrs (le_of_lt hp) hr))

theorem fillOrder_none (st : StratState) (pr : ℚ) :
    fillOrder st pr none = st := rfl

theorem fillOrder_vol_frac (st : StratState) (pr : ℚ) (o : Option Order) :
    (fillOrder st pr o).vol_frac = st.vol_frac := by
  cases o with
  | none => rfl
  | some o' => cases o' <;> rfl

/-- One full bar (step plus fill) never decreases the broker position. -/
theorem step_pos_mono (p : Params) (mode : Mode) (c : MarketCtx)
    (st : StratState) (hrs : 0 ≤ p.reduce_step) (hc : 0 ≤ c.close) :
    st.pos ≤ (fillOrder (nextStep p mode c st).1 c.close
      (nextStep p mode c st).2).pos := by
  rcases nextStep_order_spec p mode c st with h0 | ⟨amt, hamt, hb⟩ | ⟨r, hr, hp, hts, hs⟩
  · rw [h0, fillOrder_none, nextStep_pos]
  · rw [hb]
    simp only [fillOrder, nextStep_pos]
    have : 0 ≤ amt / c.close := div_nonneg (le_of_lt hamt) hc
    linarith
  · exact absurd hts (not_lt.mpr (sizeToSell_nonpos p st.pos
      st.ledger.max_hold_shares r hrs (le_of_lt hp) hr))

theorem applyFill_shares_nonneg (L : Ledger) (s pr : ℚ) :
    0 ≤ (applyFill L s pr).hold_shares := by
  have heps : (0 : ℚ) < epsShares := by norm_num [epsShares]
  unfold applyFill
  by_cases hlt : L.hold_shares + s < epsShares
  · simp [hlt]
  · simp only [hlt, if_false]
    have := not_lt.mp hlt
    linarith

theorem applyFill_reset (L : Ledger) (s pr : ℚ)
    (h : L.hold_shares + s < epsShares) :
    (applyFill L s pr).hold_shares = 0 ∧ (applyFill L s pr).hold_cost = 0 := by
  unfold applyFill
  simp [h]

theorem applyFill_cost_nonneg (L : Ledger) (s pr : ℚ) (h1 : 0 ≤ s)
    (h2 : 0 ≤ pr) (h3 : 0 ≤ L.hold_cost) :
    0 ≤ (applyFill L s pr).hold_cost := by
  unfold applyFill
  by_cases hlt : L.hold_shares + s < epsShares
  · simp [hlt]
  · simp only [hlt, if_false]
    have : 0 ≤ s * pr := mul_nonneg h1 h2
    linarith

theorem applyFill_max_mono (L : Ledger) (s pr : ℚ) :
    L.max_hold_shares ≤ (applyFill L s pr).max_hold_shares := by
  unfold applyFill
  dsimp only
  split_ifs <;> linarith

theorem step_cost_nonneg (p : Params) (mode : Mode) (c : MarketCtx)
    (st : StratState) (hrs : 0 ≤ p.reduce_step) (hc : 0 ≤ c.close)
    (hcost : 0 ≤ st.ledger.hold_cost) :
    0 ≤ (fillOrder (nextStep p mode c st).1 c.close
      (nextStep p mode c st).2).ledger.hold_cost := by
  rcases nextStep_order_spec p mode c st with h0 | ⟨amt, hamt, hb⟩ | ⟨r, hr, hp, hts, hs⟩
  · rw [h0, fillOrder_none, nextStep_ledger]
    exact hcost
  · rw [hb]
    simp only [fillOrder, nextStep_ledger]
    exact applyFill_cost_nonneg _ _ _
      (div_nonneg (le_of_lt hamt) hc) hc hcost
  · exact absurd hts (not_lt.mpr (sizeToSell_nonpos p st.pos
      st.ledger.max_hold_shares r hrs (le_of_lt hp) hr))

theorem step_shares_nonneg (p : Params) (mode : Mode) (c : MarketCtx)
    (st : StratState) (hrs : 0 ≤ p.reduce_step)
    (h : 0 ≤ st.ledger.hold_shares) :
    0 ≤ (fillOrder (nextStep p mode c st).1 c.close
      (nextStep p mode c st).2).ledger.hold_shares := by
  rcases nextStep_order_spec p mode c st with h0 | ⟨amt, hamt, hb⟩ | ⟨r, hr, hp, hts, hs⟩
  · rw [h0, fillOrder_none, nextStep_ledger]
    exact h
  · rw [hb]
    simp only [fillOrder, nextStep_ledger]
    exact applyFill_shares_nonneg _ _ _
  · exact absurd hts (not_lt.mpr (sizeToSell_nonpos p st.pos
      st.ledger.max_hold_shares r hrs (le_of_lt hp) hr))

/-- Invariants preserved by every bar hold at every state of a run. -/
theorem runStates_all (p : Params) (mode : Mode) (ctxs : List MarketCtx)
    (P : StratState → Prop)
    (hstep : ∀ c ∈ ctxs, ∀ st : StratState, P st →
      P (fillOrder (nextStep p mode c st).1 c.close (nextStep p mode c st).2)) :
    ∀ st : StratState, P st → ∀ s ∈ runStates p mode st ctxs, P s := by
  induction ctxs with
  | nil =>
      intro st hP s hmem
      simp only [runStates, List.mem_singleton] at hmem
      rw [hmem]
      exact hP
  | cons c rest ih =>
      intro st hP s hmem
      simp only [runStates, List.mem_cons] at hmem
      rcases hmem with h | h
      · rw [h]
        exact hP
      · exact ih (fun x hx => hstep x (List.mem_cons_of_mem _ hx)) _
          (hstep c (List.mem_cons_self _ _) st hP) s h

theorem runStates_head (p : Params) (mode : Mode) (st : StratState)
    (ctxs : List MarketCtx) :
    (runStates p mode st ctxs).head? = some st := by
  cases ctxs <;> rfl

/-- Along a run with non-negative closes, the broker position is
non-decreasing from each bar to the next. -/
theorem runStates_pos_chain (p : Params) (mode : Mode)
    (hrs : 0 ≤ p.reduce_step) :
    ∀ (ctxs : List MarketCtx) (st : StratState),
      (∀ c ∈ ctxs, 0 ≤ c.close) →
      List.Chain' (fun a b => a.pos ≤ b.pos) (runStates p mode st ctxs) := by
  intro ctxs
  induction ctxs with
  | nil =>
      intro st _
      simp [runStates]
  | cons c rest ih =>
      intro st hc
      simp only [runStates]
      rw [List.chain'_cons']
      constructor
      · intro y hy
        rw [runStates_head, Option.mem_some_iff] at hy
        subst hy
        exact step_pos_mono p mode c st hrs (hc c (List.mem_cons_self _ _))
      · exact ih _ (fun x hx => hc x (List.mem_cons_of_mem _ hx))

/-- No sell order ever appears among the orders of a run. -/
theorem runSteps_no_sell (p : Params) (mode : Mode) (hrs : 0 ≤ p.reduce_step) :
    ∀ (ctxs : List MarketCtx) (st : StratState) (o : Order),
      o ∈ (runSteps p mode st ctxs).2 → ∀ sz : ℚ, o ≠ Order.sell sz := by
  intro ctxs
  induction ctxs with
  | nil =>
      intro st o hmem
      simp [runSteps] at hmem
  | cons c rest ih =>
      intro st o hmem sz
      simp only [runSteps] at hmem
      rcases hord : (nextStep p mode c st).2 with _ | o'
      · rw [hord] at hmem
        exact ih _ o hmem sz
      · rw [hord] at hmem
        simp only [List.mem_cons] at hmem
        rcases hmem with h | h
        · subst h
          intro he
          rw [he] at hord
          exact nextStep_no_sell p mode c st hrs sz hord
        · exact ih _ o h sz

/-- An advisory run submits no orders at all. -/
theorem runSteps_suggestion_orders (p : Params) :
    ∀ (ctxs : List MarketCtx) (st : StratState),
      (runSteps p Mode.suggestion st ctxs).2 = [] := by
  intro ctxs
  induction ctxs with
  | nil => intro st; rfl
  | cons c rest ih =>
      intro st
      simp only [runSteps, nextStep_suggestion_order]
      exact ih _

/-! ### The claims -/

/-- `_get_trend` classifies the concrete bar `ctxSD` as SD. -/
theorem getTrend_ctxSD : getTrend defaultParams ctxSD = Trend.SD := by
  norm_num [getTrend, isStrongUpTrend, isWeakUpTrend, isConsolidation,
    isStrongDownTrend, defaultParams, ctxSD]

/-- On the bar `ctxSD` with `vol_ratio = 0` the entry score is 0. -/
theorem goodEntryPoint_ctxSD : goodEntryPoint ctxSD (0 : ℚ) = 0 := by
  norm_num [goodEntryPoint, entryScore, isOversold, ctxSD]

/-- C1. The claim says this state yields a sell of exactly 100 shares,
reducing `held_shares` to exactly 900.  It is false: on the SD-persistence
bar (`_trend_change` ratio −2) the code computes
`size_to_sell = min(1000 * (0.10 * -2), 900) = -200`, the `size_to_sell > 0`
guard fails, no sell order is submitted, and the holding stays at 1000. -/
theorem C1_counterexample :
    (trendChange Trend.SD Trend.SD ctxSD).1 = -2
    ∧ (nextStep defaultParams Mode.trend ctxSD c1State).2 = none
    ∧ (fillOrder (nextStep defaultParams Mode.trend ctxSD c1State).1
        ctxSD.close
        (nextStep defaultParams Mode.trend ctxSD c1State).2).ledger.hold_shares
      = 1000
    ∧ (fillOrder (nextStep defaultParams Mode.trend ctxSD c1State).1
        ctxSD.close
        (nextStep defaultParams Mode.trend ctxSD c1State).2).ledger.hold_shares
      ≠ 900 := by
  have h1 : trendChange Trend.SD Trend.SD ctxSD = (-2, "趋势保持强跌，大幅减仓") :=
    rfl
  have hstep : (nextStep defaultParams Mode.trend ctxSD c1State).2 = none
      ∧ (nextStep defaultParams Mode.trend ctxSD
          c1State).1.ledger.hold_shares = 1000 := by
    simp [nextStep, c1State, getTrend_ctxSD, h1, goodEntryPoint_ctxSD,
      sizeToSell, canReduce]
    norm_num [defaultParams, min_def, max_def]
  refine ⟨by rw [h1], hstep.1, ?_, ?_⟩
  · rw [hstep.1]
    exact hstep.2
  · rw [hstep.1]
    simp only [fillOrder, hstep.2]
    norm_num

/-- C1 (amended): in execution mode, at a state with `held_shares = 1000`,
`max_held_shares = 1000`, `bottom_ratio = 0.10` and `reduce_step = 0.10`, a
directive with ratio −2 produces no sell at all: the computed
`size_to_sell` is `min(1000 × (0.10 × (−2)), 900) = −200`, the positivity
guard rejects it, no sell order is submitted, and `held_shares` remains
exactly 1000 (the bottom-ratio floor `max_held_shares × bottom_ratio = 100`
is never approached). -/
theorem C1_amended :
    sizeToSell defaultParams 1000 1000 (-2) = -200
    ∧ canReduce defaultParams 1000 1000 = 900
    ∧ (trendChange Trend.SD Trend.SD ctxSD).1 = -2
    ∧ (nextStep defaultParams Mode.trend ctxSD c1State).2 = none
    ∧ (nextStep defaultParams Mode.trend ctxSD c1State).1.pos = 1000
    ∧ (nextStep defaultParams Mode.trend ctxSD c1State).1.ledger.hold_shares
      = 1000 := by
  have h1 : trendChange Trend.SD Trend.SD ctxSD = (-2, "趋势保持强跌，大幅减仓") :=
    rfl
  refine ⟨?_, ?_, by rw [h1], ?_⟩
  · norm_num [sizeToSell, canReduce, defaultParams, min_def, max_def]
  · norm_num [canReduce, defaultParams, max_def]
  · simp [nextStep, c1State, getTrend_ctxSD, h1, goodEntryPoint_ctxSD,
      sizeToSell, canReduce]
    norm_num [defaultParams, min_def, max_def]

/-- C2. The claim says the post-fill cost basis of a partial sell equals
`held_shares_post × (cost_basis_pre / held_shares_pre)` for every fill price.
It is false: selling 1 of 2 shares held at total cost 20 (average cost 10) at
price 20 leaves `hold_cost = 20 - 20 = 0`, not `1 × 10 = 10` — the code
subtracts the sale proceeds `(-s) × p`, not the weighted-average cost of the
shares sold. -/
theorem C2_counterexample :
    ¬ ((applyFill ⟨2, 20, 0, 2⟩ (-1) 20).hold_cost
        = (applyFill ⟨2, 20, 0, 2⟩ (-1) 20).hold_shares * ((20 : ℚ) / 2)) := by
  norm_num [applyFill, avgCost, epsShares]

/-- C2 (amended): for a completed sell fill of `s` shares (`s < 0`) at price
`p` that does not close the position, the post-fill cost basis equals
`cost_basis_pre + s × p` (proceeds deducted at the fill price); it equals the
weighted-average cost of the remaining lot,
`held_shares_post × (cost_basis_pre / held_shares_pre)`, exactly when the fill
price equals the pre-fill average cost. -/
theorem C2_amended (L : Ledger) (s pr : ℚ) (hs : s < 0)
    (hpos : 0 < L.hold_shares) (hkeep : epsShares ≤ L.hold_shares + s) :
    (applyFill L s pr).hold_cost = L.hold_cost + s * pr
    ∧ (applyFill L s pr).hold_shares = L.hold_shares + s
    ∧ ((applyFill L s pr).hold_cost
        = (applyFill L s pr).hold_shares * (L.hold_cost / L.hold_shares)
        ↔ pr = L.hold_cost / L.hold_shares) := by
  have hH : L.hold_shares ≠ 0 := ne_of_gt hpos
  have hnotlt : ¬ (L.hold_shares + s < epsShares) := not_lt.mpr hkeep
  have hcost : (applyFill L s pr).hold_cost = L.hold_cost + s * pr := by
    simp [applyFill, hnotlt]
  have hshares : (applyFill L s pr).hold_shares = L.hold_shares + s := by
    simp [applyFill, hnotlt]
  refine ⟨hcost, hshares, ?_⟩
  rw [hcost, hshares]
  have hexp : (L.hold_shares + s) * (L.hold_cost / L.hold_shares)
      = L.hold_cost + s * (L.hold_cost / L.hold_shares) := by
    field_simp
    ring
  rw [hexp]
  constructor
  · intro h
    have h2 : s * pr = s * (L.hold_cost / L.hold_shares) := by linarith
    exact mul_left_cancel₀ (ne_of_lt hs) h2
  · intro h
    rw [h]

/-- Witness for C2 (amended): selling 1 of 4 shares held at cost 40 at
price 7 leaves cost basis `40 - 7 = 33`. -/
theorem C2_amended_witness :
    ((-1 : ℚ) < 0) ∧ ((0 : ℚ) < (⟨4, 40, 0, 4⟩ : Ledger).hold_shares)
    ∧ epsShares ≤ (⟨4, 40, 0, 4⟩ : Ledger).hold_shares + (-1)
    ∧ (applyFill ⟨4, 40, 0, 4⟩ (-1) 7).hold_cost = 40 + (-1) * 7 :=
  ⟨by norm_num, by norm_num, by norm_num [epsShares],
    (C2_amended ⟨4, 40, 0, 4⟩ (-1) 7 (by norm_num) (by norm_num)
      (by norm_num [epsShares])).1⟩

/-- C4. The claim says `cost_basis ≥ 0` after every completed fill (buy or
sell).  It is false: selling 1 of 2 shares held at total cost 20 at price 30
leaves `hold_cost = 20 - 30 = -10 < 0`, with `hold_shares = 1` so the epsilon
reset does not fire. -/
theorem C4_counterexample :
    (applyFill ⟨2, 20, 0, 2⟩ (-1) 30).hold_cost < 0
    ∧ (applyFill ⟨2, 20, 0, 2⟩ (-1) 30).hold_shares = 1 := by
  norm_num [applyFill, avgCost, epsShares]

/-- C4 (amended): after every completed fill `held_shares ≥ 0`; whenever the
post-fill holding falls below the epsilon `1e-12`, both `held_shares` and
`cost_basis` are reset to exactly 0; `max_held_shares` never decreases; and
`cost_basis` stays non-negative for every buy fill at a non-negative price —
but not for every sell fill (see the counterexample).  Along every execution
run of this code both `hold_cost` and `hold_shares` do stay non-negative,
because the driver only ever submits buy orders. -/
theorem C4_amended (L : Ledger) (s pr : ℚ) :
    0 ≤ (applyFill L s pr).hold_shares
    ∧ (L.hold_shares + s < epsShares →
        (applyFill L s pr).hold_shares = 0 ∧ (applyFill L s pr).hold_cost = 0)
    ∧ (0 ≤ s → 0 ≤ pr → 0 ≤ L.hold_cost → 0 ≤ (applyFill L s pr).hold_cost)
    ∧ L.max_hold_shares ≤ (applyFill L s pr).max_hold_shares
    ∧ ∀ (p : Params) (ctxs : List MarketCtx) (cash : ℚ),
        0 ≤ p.reduce_step → (∀ c ∈ ctxs, 0 ≤ c.close) →
        ∀ st ∈ runStates p Mode.trend (initState cash) ctxs,
          0 ≤ st.ledger.hold_cost ∧ 0 ≤ st.ledger.hold_shares := by
  refine ⟨applyFill_shares_nonneg L s pr, applyFill_reset L s pr,
    applyFill_cost_nonneg L s pr, applyFill_max_mono L s pr, ?_⟩
  intro p ctxs cash hrs hc
  exact runStates_all p Mode.trend ctxs
    (fun st => 0 ≤ st.ledger.hold_cost ∧ 0 ≤ st.ledger.hold_shares)
    (fun c hcm st hP => ⟨step_cost_nonneg p Mode.trend c st hrs (hc c hcm) hP.1,
      step_shares_nonneg p Mode.trend c st hrs hP.2⟩)
    (initState cash) ⟨le_refl 0, le_refl 0⟩

/-- Witness for C4 (amended): selling the whole single-share position
(`1 + (-1) = 0 < 1e-12`) resets both shares and cost to 0. -/
theorem C4_amended_witness :
    0 ≤ (applyFill ⟨1, 10, 0, 1⟩ (-1) 5).hold_shares
    ∧ ((⟨1, 10, 0, 1⟩ : Ledger).hold_shares + (-1) < epsShares)
    ∧ (applyFill ⟨1, 10, 0, 1⟩ (-1) 5).hold_shares = 0
    ∧ (applyFill ⟨1, 10, 0, 1⟩ (-1) 5).hold_cost = 0 :=
  ⟨(C4_amended ⟨1, 10, 0, 1⟩ (-1) 5).1, by norm_num [epsShares],
    ((C4_amended ⟨1, 10, 0, 1⟩ (-1) 5).2.1 (by norm_num [epsShares])).1,
    ((C4_amended ⟨1, 10, 0, 1⟩ (-1) 5).2.1 (by norm_num [epsShares])).2⟩

/-- C5. For every completed sell fill of `n > 0` shares at price `p` from a
non-negative holding, `realized_pnl` increases by exactly
`n × (p − cost_basis/held_shares)` (with the average cost read as 0 when
`held_shares = 0`), and a completed buy fill never changes `realized_pnl`;
both cases are instances of the single update in `applyFill`. -/
theorem C5_realized_pnl (L : Ledger) (n pr : ℚ) (hn : 0 < n)
    (hL : 0 ≤ L.hold_shares) :
    (applyFill L (-n) pr).realized_pnl
      = L.realized_pnl + n * (pr - L.hold_cost / L.hold_shares)
    ∧ ∀ s : ℚ, 0 ≤ s → (applyFill L s pr).realized_pnl = L.realized_pnl := by
  constructor
  · have hneg : (-n : ℚ) < 0 := neg_neg_of_pos hn
    have hav : avgCost L = L.hold_cost / L.hold_shares := by
      unfold avgCost
      rcases lt_or_eq_of_le hL with h | h
      · simp [h]
      · simp [← h]
    simp [applyFill, hneg, hav]
  · intro s hs
    have : ¬ (s < 0) := not_lt.mpr hs
    simp [applyFill, this]

/-- Witness for C5: selling 1 of 2 shares held at cost 20 (average cost 10)
at price 13 realizes exactly `1 × (13 − 10) = 3` on top of the prior 5. -/
theorem C5_witness :
    ((0 : ℚ) < 1) ∧ ((0 : ℚ) ≤ (⟨2, 20, 5, 2⟩ : Ledger).hold_shares)
    ∧ (applyFill ⟨2, 20, 5, 2⟩ (-1) 13).realized_pnl = 5 + 1 * (13 - 20 / 2)
    ∧ (applyFill ⟨2, 20, 5, 2⟩ 1 13).realized_pnl = 5 :=
  ⟨by norm_num, by norm_num,
    (C5_realized_pnl ⟨2, 20, 5, 2⟩ 1 13 (by norm_num) (by norm_num)).1,
    (C5_realized_pnl ⟨2, 20, 5, 2⟩ 1 13 (by norm_num) (by norm_num)).2 1
      (by norm_num)⟩

/-- C7. For every ordered pair of the six trend states and every bar context,
`_trend_change` returns a defined directive, and every pair not covered by a
specific persistence, transition, or consolidation rule yields ratio 0 with
the "no action" rationale. -/
theorem C7_transition_total :
    (∀ (prev curr : Trend) (c : MarketCtx),
      ∃ d : ℚ × String, trendChange prev curr c = d)
    ∧ ∀ prev curr : Trend, coveredPair prev curr = false →
        ∀ c : MarketCtx, trendChange prev curr c = (0, "无操作") := by
  refine ⟨fun _ _ _ => ⟨_, rfl⟩, ?_⟩
  intro prev curr h c
  cases prev <;> cases curr <;> first
    | rfl
    | exact absurd h (by decide)

/-- Witness for C7: the uncovered pair (SU, SD) yields the default
directive. -/
theorem C7_witness :
    coveredPair Trend.SU Trend.SD = false
    ∧ trendChange Trend.SU Trend.SD ctxSD = (0, "无操作") :=
  ⟨by decide, C7_transition_total.2 Trend.SU Trend.SD (by decide) ctxSD⟩

/-- C8. The transition Consolidation → StrongUp returns ratio +3 with the
forceful-breakout rationale for every bar context — independently of the
breakout anticipator, band position, volume, and overbought/oversold
state. -/
theorem C8_co_to_su (c : MarketCtx) :
    trendChange Trend.CO Trend.SU c = (3, "震荡→强升，强力建仓（有效突破）") :=
  rfl

/-- C9. On every bar past the warm-up guards (`len(self) > 5`, which also
implies `len(self) > 3`), the breakout anticipator returns true if and only
if at least 2 of the 5 signals listed in the specification hold. -/
theorem C9_breakout (c : MarketCtx) (h : 5 < c.barLen) :
    breakoutComing c = true ↔ 2 ≤ specSignalCount c := by
  have h3 : 3 < c.barLen := by omega
  simp only [breakoutComing, specSignalCount, if_pos h, if_pos h3,
    decide_eq_true_eq]

/-- Witness for C9 at a concrete bar (only the price-break signal fires, so
the anticipator correctly reports no breakout). -/
theorem C9_witness :
    5 < ctxSD.barLen
    ∧ (breakoutComing ctxSD = true ↔ 2 ≤ specSignalCount ctxSD) :=
  ⟨by decide, C9_breakout ctxSD (by decide)⟩

/-- C3. In execution mode (indeed in every mode), for every directive with
negative ratio `r` the computed sell size
`min(pos.size × (reduce_step × r), can_reduce)` is never positive (for a
non-negative position and the non-negative `reduce_step` parameter), so the
`size_to_sell > 0` guard never passes: no sell order is ever submitted during
the transition phase, and the broker position never decreases from one bar to
the next. -/
theorem C3_no_sell_ever (p : Params) (ctxs : List MarketCtx)
    (st0 : StratState) (hrs : 0 ≤ p.reduce_step)
    (hc : ∀ c ∈ ctxs, 0 ≤ c.close) :
    (∀ pos mh r : ℚ, 0 ≤ pos → r < 0 → sizeToSell p pos mh r ≤ 0)
    ∧ (∀ o ∈ (runSteps p Mode.trend st0 ctxs).2, ∀ sz : ℚ, o ≠ Order.sell sz)
    ∧ List.Chain' (fun a b => a.pos ≤ b.pos)
        (runStates p Mode.trend st0 ctxs) :=
  ⟨fun pos mh r hp hr => sizeToSell_nonpos p pos mh r hrs hp hr,
   fun o hmem sz => runSteps_no_sell p Mode.trend hrs ctxs st0 o hmem sz,
   runStates_pos_chain p Mode.trend hrs ctxs st0 hc⟩

/-- Witness for C3 on a one-bar run through the SD-persistence scenario. -/
theorem C3_witness :
    (0 : ℚ) ≤ defaultParams.reduce_step
    ∧ (∀ c ∈ [ctxSD], (0 : ℚ) ≤ c.close)
    ∧ sizeToSell defaultParams 1000 1000 (-2) ≤ 0
    ∧ List.Chain' (fun a b => a.pos ≤ b.pos)
        (runStates defaultParams Mode.trend c1State [ctxSD]) :=
  have h1 : (0 : ℚ) ≤ defaultParams.reduce_step := by norm_num [defaultParams]
  have h2 : ∀ c ∈ [ctxSD], (0 : ℚ) ≤ c.close := by
    intro c hcm
    simp only [List.mem_singleton] at hcm
    subst hcm
    norm_num [ctxSD]
  ⟨h1, h2,
   (C3_no_sell_ever defaultParams [ctxSD] c1State h1 h2).1 1000 1000 (-2)
     (by norm_num) (by norm_num),
   (C3_no_sell_ever defaultParams [ctxSD] c1State h1 h2).2.2⟩

/-- C6. An advisory (`'suggestion'`) run is a pure function of the series and
configuration, so running it twice yields the identical final state — in
particular the identical directive and rationale (`signal`) — and it leaves
no ledger artifacts: no buy or sell order is ever submitted, and
`hold_shares`, `hold_cost`, `realized_pnl` and `max_hold_shares` stay at
their initial zero values at every bar of the run. -/
theorem C6_advisory_idempotent (p : Params) (ctxs : List MarketCtx)
    (cash : ℚ) :
    runSteps p Mode.suggestion (initState cash) ctxs
      = runSteps p Mode.suggestion (initState cash) ctxs
    ∧ (runSteps p Mode.suggestion (initState cash) ctxs).2 = []
    ∧ ∀ s ∈ runStates p Mode.suggestion (initState cash) ctxs,
        s.ledger = ⟨0, 0, 0, 0⟩ := by
  refine ⟨rfl, runSteps_suggestion_orders p ctxs _, ?_⟩
  refine runStates_all p Mode.suggestion ctxs
    (fun st => st.ledger = ⟨0, 0, 0, 0⟩) ?_ (initState cash) rfl
  intro c _ st hP
  rw [nextStep_suggestion_order, fillOrder_none, nextStep_ledger]
  exact hP

/-- Witness for C6 on a concrete advisory run. -/
theorem C6_witness :
    (runSteps defaultParams Mode.suggestion (initState 0) [ctxSD]).2 = []
    ∧ (initState 0).ledger = ⟨0, 0, 0, 0⟩ :=
  ⟨(C6_advisory_idempotent defaultParams [ctxSD] 0).2.1,
   (C6_advisory_idempotent defaultParams [ctxSD] 0).2.2 (initState 0)
     (by simp [runStates])⟩

/-- C10. `vol_ratio` is initialized to 0.0 and `next()` never reassigns it
(only `stop()` does, after the last bar), so at every bar of every run
`vol_frac = 0`; consequently the entry-quality condition `vol_ratio > 1.0`
is always false — the entry score never exceeds 3 — and the volume-breakout,
volume-shrink and both volume-divergence predicates are false throughout
the run. -/
theorem C10_vol_frac_zero (p : Params) (mode : Mode) (ctxs : List MarketCtx)
    (cash : ℚ) :
    (∀ s ∈ runStates p mode (initState cash) ctxs, s.vol_frac = 0)
    ∧ (∀ c : MarketCtx, entryScore c 0 ≤ 3)
    ∧ (∀ c : MarketCtx, isVolumeBreakout c 0 = false)
    ∧ isVolumeShrink 0 = false
    ∧ (∀ c : MarketCtx, isBullishVolumeDivergence c 0 = false)
    ∧ (∀ c : MarketCtx, isBearishVolumeDivergence c 0 = false) := by
  refine ⟨?_, ?_, ?_, ?_, ?_, ?_⟩
  · refine runStates_all p mode ctxs (fun st => st.vol_frac = 0) ?_
      (initState cash) rfl
    intro c _ st hP
    rw [fillOrder_vol_frac, nextStep_vol_frac]
    exact hP
  · intro c
    unfold entryScore
    have h4 : ¬ ((0 : ℚ) > 1) := by norm_num
    rw [if_neg h4]
    split_ifs <;> norm_num
  · intro c
    norm_num [isVolumeBreakout]
  · norm_num [isVolumeShrink]
  · intro c
    norm_num [isBullishVolumeDivergence]
  · intro c
    norm_num [isBearishVolumeDivergence]

/-- Witness for C10 on a concrete run and a concrete bar. -/
theorem C10_witness :
    (initState 0).vol_frac = 0
    ∧ entryScore ctxSD 0 ≤ 3
    ∧ isVolumeBreakout ctxSD 0 = false :=
  ⟨(C10_vol_frac_zero defaultParams Mode.trend [] 0).1 (initState 0)
     (by simp [runStates]),
   (C10_vol_frac_zero defaultParams Mode.trend [] 0).2.1 ctxSD,
   (C10_vol_frac_zero defaultParams Mode.trend [] 0).2.2.1 ctxSD⟩

end InvestTrader
